import Mathlib

/-!
Verification of the spherical/cartesian coordinate conversion library
(`spherical_objects.py`): fisheye lens transforms between 2D pixel space
and the unit sphere, plus bounding-box and polygon conversion plumbing.

Numeric code is embedded over `ℝ` (the floating-point operations of the
source become their exact real counterparts); fallible operations
(assertion failures, `acos` domain errors, division by zero) are embedded
in `Except Err`.  Box and polygon coordinate data is `ℤ`, matching the
source's `List[int]` annotations, with Python's floor division `//`
rendered as `Int.fdiv`.
-/

namespace SphericalObjects

/-- Error outcomes of the source: `ValueError` from `convert_point`
(invalid dimension, carrying the observed length), `AssertionError`s from
the length and format validations, Python's `math domain error` from
`acos`, `ZeroDivisionError`, and the `ValueError` raised by tuple
unpacking of a wrong-length list. -/
inductive Err where
  | invalidDimension (n : ℕ)
  | invalidLength
  | invalidFormat
  | mathDomainError
  | divisionByZero
  | unpackMismatch
  deriving DecidableEq, Repr

/-- Lens constant `f = 714.285714` (focal length, 1080p image). -/
def f : ℝ := 714.285714

/-- Lens constant `center = [960, 540]` (principal point). -/
def center : ℝ × ℝ := (960, 540)

/-- Lens constant `D = 1.082984` (fov/distortion scale for image-1). -/
def D : ℝ := 1.082984

/-- `cartesian2sphere(pt)`: translate by the principal point, scale by the
focal length, normalize the direction unless the radius is zero, scale the
radius by `D`, and lift onto the unit sphere.  Returns `[x, y, z]`. -/
noncomputable def cartesian2sphere (px py : ℝ) : List ℝ :=
  let x := (px - center.1) / f
  let y := (py - center.2) / f
  let r := Real.sqrt (x * x + y * y)
  let x1 := if r ≠ 0 then x / r else x
  let y1 := if r ≠ 0 then y / r else y
  let r1 := r * D
  let sin_theta := Real.sin r1
  [x1 * sin_theta, y1 * sin_theta, Real.cos r1]

/-- `sphere2cartesian(pt)`: `r = acos(z)/D`, divided further by
`sqrt(1 - z²)` unless `z == 1`, then mapped back through the focal length
and principal point.  `acos` outside `[-1, 1]` raises a math domain error
and a zero divisor raises `ZeroDivisionError`, so the embedding is in
`Except Err`. -/
noncomputable def sphere2cartesian (px py pz : ℝ) : Except Err (List ℝ) :=
  if pz < -1 ∨ 1 < pz then .error .mathDomainError
  else
    let r := Real.arccos pz / D
    if pz = 1 then
      .ok [r * px * f + center.1, r * py * f + center.2]
    else if Real.sqrt (1 - pz * pz) = 0 then .error .divisionByZero
    else
      let r2 := r / Real.sqrt (1 - pz * pz)
      .ok [r2 * px * f + center.1, r2 * py * f + center.2]

/-- `convert_point(point)`: dispatch on the arity — 2D goes to
`cartesian2sphere`, 3D to `sphere2cartesian`, anything else raises
`ValueError` reporting the observed number of dimensions. -/
noncomputable def convert_point : List ℝ → Except Err (List ℝ)
  | [a, b] => .ok (cartesian2sphere a b)
  | [a, b, c] => sphere2cartesian a b c
  | l => .error (.invalidDimension l.length)

/-- The radius of a pixel point after principal-point translation, focal
scaling and multiplication by the fov scale `D`; the quantity the spec's
round-trip contract constrains to `(0, π)`. -/
noncomputable def transformed_radius (px py : ℝ) : ℝ :=
  Real.sqrt (((px - center.1) / f) * ((px - center.1) / f) +
    ((py - center.2) / f) * ((py - center.2) / f)) * D

/-- `CartesianBbox`: 4 integer values plus a format tag string. -/
structure CartesianBbox where
  points : List ℤ
  fmt : String
  deriving DecidableEq, Repr

/-- `CartesianBbox.__init__`: asserts the format tag is one of
`xyxy`/`xywh`/`cxcywh` and that there are exactly 4 values. -/
def mkCartesianBbox (points : List ℤ) (fmt : String) : Except Err CartesianBbox :=
  if fmt ∈ ["xyxy", "xywh", "cxcywh"] then
    if points.length = 4 then .ok ⟨points, fmt⟩
    else .error .invalidLength
  else .error .invalidFormat

/-- `SphericalBbox`: both transformed corners concatenated,
`[x1,y1,z1,x2,y2,z2]`. -/
structure SphericalBbox where
  points : List ℝ

/-- `SphericalBbox.POINTS_LEN = 6`. -/
def SphericalBbox.POINTS_LEN : ℕ := 6

/-- `SphericalBbox.__post_init__`: asserts exactly 6 values. -/
def mkSphericalBbox (points : List ℝ) : Except Err SphericalBbox :=
  if points.length = SphericalBbox.POINTS_LEN then .ok ⟨points⟩
  else .error .invalidLength

/-- `_bbox_to_spherical(bbox)`: convert `bbox[:2]` and `bbox[2:]` and
concatenate into a `SphericalBbox`. -/
noncomputable def bbox_to_spherical_aux (bbox : List ℤ) : Except Err SphericalBbox := do
  let upper_left ← convert_point ((bbox.take 2).map fun n => (n : ℝ))
  let lower_right ← convert_point ((bbox.drop 2).map fun n => (n : ℝ))
  mkSphericalBbox (upper_left ++ lower_right)

/-- `xywh_to_xxyy(points)`: `(x, y, w, h) ↦ (x, y, x+w, y+h)`; tuple
unpacking of a wrong-length list raises `ValueError`. -/
def xywh_to_xxyy : List ℤ → Except Err (List ℤ)
  | [x, y, w, h] => .ok [x, y, x + w, y + h]
  | _ => .error .unpackMismatch

/-- `cxcywh_to_xxyy(points)`: halve `w` and `h` with Python floor division
`//` and return `(cx-w, cy-h, cx+w, cy+h)`. -/
def cxcywh_to_xxyy : List ℤ → Except Err (List ℤ)
  | [cx, cy, w, h] => .ok [cx - w.fdiv 2, cy - h.fdiv 2, cx + w.fdiv 2, cy + h.fdiv 2]
  | _ => .error .unpackMismatch

/-- `bbox_to_spherical(cartesian)`: normalize the box to corner form
according to its tag (anything other than `xywh`/`cxcywh` passes the
points through unchanged) and transform to spherical coordinates. -/
noncomputable def bbox_to_spherical (cartesian : CartesianBbox) : Except Err SphericalBbox := do
  let bbox_xxyy ←
    if cartesian.fmt = "xywh" then xywh_to_xxyy cartesian.points
    else if cartesian.fmt = "cxcywh" then cxcywh_to_xxyy cartesian.points
    else .ok cartesian.points
  bbox_to_spherical_aux bbox_xxyy

/-- `CartesianPolygon.MIN_POLY_LEN = 3`. -/
def MIN_POLY_LEN : ℕ := 3

/-- `CartesianPolygon`: contour of integer pixel pairs. -/
structure CartesianPolygon where
  contour : List (ℤ × ℤ)
  deriving DecidableEq, Repr

/-- `CartesianPolygon.__post_init__`: asserts at least 3 contour points. -/
def mkCartesianPolygon (contour : List (ℤ × ℤ)) : Except Err CartesianPolygon :=
  if MIN_POLY_LEN ≤ contour.length then .ok ⟨contour⟩
  else .error .invalidLength

/-- `SphericalPolygon`: contour of converted points (each a 3-element
coordinate list as produced by `convert_point`). -/
structure SphericalPolygon where
  contour : List (List ℝ)

/-- `SphericalPolygon.__post_init__`: asserts at least 3 contour points. -/
def mkSphericalPolygon (contour : List (List ℝ)) : Except Err SphericalPolygon :=
  if MIN_POLY_LEN ≤ contour.length then .ok ⟨contour⟩
  else .error .invalidLength

/-- `polygon_to_spherical(cartesian)`: apply `convert_point` to every
contour vertex in order and build a `SphericalPolygon`. -/
noncomputable def polygon_to_spherical (cartesian : CartesianPolygon) :
    Except Err SphericalPolygon := do
  let spherical_contour ←
    cartesian.contour.mapM fun p => convert_point [(p.1 : ℝ), (p.2 : ℝ)]
  mkSphericalPolygon spherical_contour

/-! ## Shared helper lemmas -/

/-- `mapM` over `Except` with a function that never fails is `map`. -/
theorem mapM_ok_map {α γ : Type} (g : α → List ℝ) (fn : α → Except γ (List ℝ))
    (hfg : ∀ a, fn a = .ok (g a)) (l : List α) : l.mapM fn = .ok (l.map g) := by
  rw [← List.mapM'_eq_mapM]
  induction l with
  | nil => rfl
  | cons x xs ih => rw [List.mapM'_cons, hfg x, List.map_cons, ih]; rfl

/-- `_bbox_to_spherical` on any 4-value corner list succeeds with the two
converted corners concatenated, a 6-value result. -/
theorem bbox_to_spherical_aux_ok (a b c d : ℤ) :
    bbox_to_spherical_aux [a, b, c, d] =
      .ok ⟨cartesian2sphere a b ++ cartesian2sphere c d⟩ := rfl

/-! ## Claim theorems -/

/-- C2.  Unit-sphere invariant: for every pixel point, the output of
`cartesian2sphere` is a 3D point of Euclidean norm exactly 1 (the real
embedding is exact, subsuming the 1e-9 tolerance). -/
theorem unit_sphere_invariant (px py : ℝ) :
    ∃ x y z, cartesian2sphere px py = [x, y, z] ∧ x ^ 2 + y ^ 2 + z ^ 2 = 1 := by
  simp only [cartesian2sphere]
  set a := (px - center.1) / f with ha
  set b := (py - center.2) / f with hb
  set r := Real.sqrt (a * a + b * b) with hr
  refine ⟨_, _, _, rfl, ?_⟩
  by_cases h : r = 0
  · have hab : a * a + b * b = 0 :=
      (Real.sqrt_eq_zero (add_nonneg (mul_self_nonneg a) (mul_self_nonneg b))).mp h
    have ha0 : a = 0 := by nlinarith [sq_nonneg a, sq_nonneg b]
    have hb0 : b = 0 := by nlinarith [sq_nonneg a, sq_nonneg b]
    simp [h, ha0, hb0]
  · have hr2 : r * r = a * a + b * b :=
      Real.mul_self_sqrt (add_nonneg (mul_self_nonneg a) (mul_self_nonneg b))
    simp only [h, if_true, ne_eq, not_false_eq_true, if_pos]
    have hs := Real.sin_sq_add_cos_sq (r * D)
    field_simp
    nlinarith [hs]

/-- C6.  Degenerate center: `cartesian2sphere` at the principal point
`(960, 540)` returns exactly `[0, 0, 1]` through the `r = 0` branch. -/
theorem degenerate_center : cartesian2sphere 960 540 = [0, 0, 1] := by
  norm_num [cartesian2sphere, center, f]

/-- C7.  Polar singularity: `sphere2cartesian` at `(0, 0, 1)` returns
exactly the principal point `[960, 540]` via the `z == 1` branch, with no
division by the vanishing `sqrt(1 - z²)`. -/
theorem polar_singularity : sphere2cartesian 0 0 1 = .ok [960, 540] := by
  norm_num [sphere2cartesian, center, f, Real.arccos_one]

/-- C1.  Round-trip inverse: for every pixel point whose transformed
radius `r * D` lies in the open interval `(0, π)`, `sphere2cartesian`
applied to the output of `cartesian2sphere` recovers the original pixel
point exactly (the real embedding is exact, subsuming the 1e-6
tolerance). -/
theorem roundtrip_inverse (px py : ℝ) (h0 : 0 < transformed_radius px py)
    (h1 : transformed_radius px py < Real.pi) :
    ∃ x y z, cartesian2sphere px py = [x, y, z] ∧
      sphere2cartesian x y z = Except.ok [px, py] := by
  have hD : (0:ℝ) < D := by norm_num [D]
  have hf : (f:ℝ) ≠ 0 := by norm_num [f]
  simp only [transformed_radius] at h0 h1
  simp only [cartesian2sphere]
  set a := (px - center.1) / f with ha
  set b := (py - center.2) / f with hb
  set r := Real.sqrt (a * a + b * b) with hr
  have hrne : r ≠ 0 := by
    intro h
    rw [h, zero_mul] at h0
    exact lt_irrefl 0 h0
  set θ := r * D with hθ
  have hθpos : 0 < θ := h0
  have hθπ : θ < Real.pi := h1
  have hsin : 0 < Real.sin θ := Real.sin_pos_of_pos_of_lt_pi hθpos hθπ
  have hcos1 : Real.cos θ < 1 := by
    have h := Real.cos_lt_cos_of_nonneg_of_le_pi le_rfl hθπ.le hθpos
    simpa using h
  have hcosm1 : -1 ≤ Real.cos θ := Real.neg_one_le_cos θ
  have hsq : 1 - Real.cos θ * Real.cos θ = Real.sin θ * Real.sin θ := by
    have h := Real.sin_sq_add_cos_sq θ
    nlinarith [h]
  have hsqrt : Real.sqrt (1 - Real.cos θ * Real.cos θ) = Real.sin θ := by
    rw [hsq]
    exact Real.sqrt_mul_self hsin.le
  rw [if_pos hrne, if_pos hrne]
  refine ⟨_, _, _, rfl, ?_⟩
  rw [sphere2cartesian]
  rw [if_neg (by push_neg; exact ⟨hcosm1, Real.cos_le_one θ⟩)]
  simp only [if_neg hcos1.ne, if_neg (hsqrt ▸ hsin.ne')]
  rw [Real.arccos_cos hθpos.le hθπ.le, hsqrt]
  have hθD : θ / D = r := by rw [hθ]; field_simp
  rw [hθD]
  simp only [Except.ok.injEq, List.cons.injEq, and_true]
  constructor
  · rw [ha]
    field_simp
    ring
  · rw [hb]
    field_simp
    ring

/-- Witness for C1 at the pixel `(1674.285714, 540)`, one focal length to
the right of the principal point, where the transformed radius is exactly
`D = 1.082984 ∈ (0, π)`. -/
theorem roundtrip_inverse_witness :
    0 < transformed_radius 1674.285714 540 ∧
    transformed_radius 1674.285714 540 < Real.pi ∧
    ∃ x y z, cartesian2sphere 1674.285714 540 = [x, y, z] ∧
      sphere2cartesian x y z = Except.ok [1674.285714, 540] := by
  have htr : transformed_radius 1674.285714 540 = D := by
    rw [transformed_radius]
    norm_num [center, f, Real.sqrt_one]
  have h0 : 0 < transformed_radius 1674.285714 540 := by rw [htr]; norm_num [D]
  have h1 : transformed_radius 1674.285714 540 < Real.pi := by
    rw [htr]
    have h3 := Real.pi_gt_three
    norm_num [D]
    linarith
  exact ⟨h0, h1, roundtrip_inverse _ _ h0 h1⟩

/-- C3.  Box format equivalence: the same box expressed as corners
`[100,150,150,200]` (`xyxy`), originSize `[100,150,50,50]` (`xywh`) and
centerSize `[125,175,50,50]` (`cxcywh`) produces exactly the same
`SphericalBbox` value under the default calibration. -/
theorem bbox_format_equivalence :
    bbox_to_spherical ⟨[100, 150, 150, 200], "xyxy"⟩ =
      bbox_to_spherical ⟨[100, 150, 50, 50], "xywh"⟩ ∧
    bbox_to_spherical ⟨[100, 150, 50, 50], "xywh"⟩ =
      bbox_to_spherical ⟨[125, 175, 50, 50], "cxcywh"⟩ := by
  have h1 : bbox_to_spherical ⟨[100, 150, 150, 200], "xyxy"⟩ =
      bbox_to_spherical_aux [100, 150, 150, 200] := rfl
  have h2 : bbox_to_spherical ⟨[100, 150, 50, 50], "xywh"⟩ =
      bbox_to_spherical_aux [100, 150, 150, 200] := rfl
  have h3 : bbox_to_spherical ⟨[125, 175, 50, 50], "cxcywh"⟩ =
      bbox_to_spherical_aux [100, 150, 150, 200] := rfl
  exact ⟨h1.trans h2.symm, h2.trans h3.symm⟩

/-- C4.  Box normalization postconditions: `xywh_to_xxyy` maps
`(x, y, w, h)` to `(x, y, x+w, y+h)`; `cxcywh_to_xxyy` maps
`(cx, cy, w, h)` to `(cx-w2, cy-h2, cx+w2, cy+h2)` with the half-extents
`w2 = w div 2`, `h2 = h div 2` taken by floor division; and a corners
(`xyxy`) box reaches the conversion with its points unchanged. -/
theorem bbox_normalization_postconditions :
    (∀ x y w h : ℤ, xywh_to_xxyy [x, y, w, h] = .ok [x, y, x + w, y + h]) ∧
    (∀ cx cy w h : ℤ, cxcywh_to_xxyy [cx, cy, w, h] =
      .ok [cx - w.fdiv 2, cy - h.fdiv 2, cx + w.fdiv 2, cy + h.fdiv 2]) ∧
    (∀ points : List ℤ, bbox_to_spherical ⟨points, "xyxy"⟩ =
      bbox_to_spherical_aux points) :=
  ⟨fun _ _ _ _ => rfl, fun _ _ _ _ => rfl, fun _ => rfl⟩

/-- C5.  Polygon vertex preservation: on any contour of at least 3
vertices, `polygon_to_spherical` succeeds and its output contour is
exactly the pointwise conversion of the input contour, in the same order
and with the same length. -/
theorem polygon_vertex_preservation (p : CartesianPolygon)
    (hlen : MIN_POLY_LEN ≤ p.contour.length) :
    ∃ s, polygon_to_spherical p = .ok s ∧
      s.contour = p.contour.map (fun q => cartesian2sphere (q.1 : ℝ) (q.2 : ℝ)) ∧
      s.contour.length = p.contour.length := by
  have hconv : ∀ q : ℤ × ℤ, convert_point [(q.1 : ℝ), (q.2 : ℝ)] =
      .ok (cartesian2sphere (q.1 : ℝ) (q.2 : ℝ)) := fun _ => rfl
  have hmap := mapM_ok_map (fun q : ℤ × ℤ => cartesian2sphere (q.1 : ℝ) (q.2 : ℝ))
    (fun q : ℤ × ℤ => convert_point [(q.1 : ℝ), (q.2 : ℝ)]) hconv p.contour
  refine ⟨⟨p.contour.map fun q => cartesian2sphere (q.1 : ℝ) (q.2 : ℝ)⟩, ?_, ?_, ?_⟩
  · show (p.contour.mapM fun q => convert_point [(q.1 : ℝ), (q.2 : ℝ)]) >>=
      mkSphericalPolygon = _
    rw [hmap]
    show mkSphericalPolygon _ = _
    rw [mkSphericalPolygon, if_pos (by rw [List.length_map]; exact hlen)]
  · rfl
  · simp

/-- Witness for C5 at the 4-vertex contour
`[(100,100),(80,150),(50,75),(90,25)]` from the source's demo. -/
theorem polygon_vertex_preservation_witness :
    MIN_POLY_LEN ≤ ([((100:ℤ), (100:ℤ)), (80, 150), (50, 75), (90, 25)] : List (ℤ × ℤ)).length ∧
    ∃ s, polygon_to_spherical ⟨[(100, 100), (80, 150), (50, 75), (90, 25)]⟩ = .ok s ∧
      s.contour = ([((100:ℤ), (100:ℤ)), (80, 150), (50, 75), (90, 25)] : List (ℤ × ℤ)).map
        (fun q => cartesian2sphere (q.1 : ℝ) (q.2 : ℝ)) ∧
      s.contour.length = ([((100:ℤ), (100:ℤ)), (80, 150), (50, 75), (90, 25)] : List (ℤ × ℤ)).length :=
  ⟨by decide, polygon_vertex_preservation ⟨[(100, 100), (80, 150), (50, 75), (90, 25)]⟩ (by decide)⟩

/-- C8.  Eager validation: a 3-value box fails the length assertion, a
2-vertex polygon fails the length assertion, and `convert_point` on any
list whose arity is neither 2 nor 3 fails with `InvalidDimension`
carrying the observed length. -/
theorem eager_validation_errors :
    mkCartesianBbox [100, 150, 200] "xyxy" = .error .invalidLength ∧
    mkCartesianPolygon [(0, 0), (1, 1)] = .error .invalidLength ∧
    ∀ point : List ℝ, point.length ≠ 2 → point.length ≠ 3 →
      convert_point point = .error (.invalidDimension point.length) := by
  refine ⟨rfl, rfl, fun point h2 h3 => ?_⟩
  match point with
  | [] => rfl
  | [a] => rfl
  | [a, b] => exact absurd rfl h2
  | [a, b, c] => exact absurd rfl h3
  | a :: b :: c :: d :: l => rfl

/-- Witness for C8's universally quantified part at the 4-element point
`[1, 2, 3, 4]`. -/
theorem eager_validation_errors_witness :
    ([(1:ℝ), 2, 3, 4].length ≠ 2) ∧ ([(1:ℝ), 2, 3, 4].length ≠ 3) ∧
    convert_point [1, 2, 3, 4] = .error (.invalidDimension 4) :=
  ⟨by decide, by decide,
    eager_validation_errors.2.2 [1, 2, 3, 4] (by decide) (by decide)⟩

/-- C9.  Implicit domain restriction of `sphere2cartesian`: at the antipodal point
`(0, 0, -1)` the `z == 1` guard does not fire and the division by
`sqrt(1 - z²) = 0` fails; for `|z| > 1` the `acos` call fails with a
domain error; and for every `z` in the half-open interval `(-1, 1]` the
function succeeds. -/
theorem sphere2cartesian_domain :
    sphere2cartesian 0 0 (-1) = .error .divisionByZero ∧
    (∀ x y z : ℝ, z < -1 ∨ 1 < z → sphere2cartesian x y z = .error .mathDomainError) ∧
    (∀ x y z : ℝ, -1 < z → z ≤ 1 → ∃ out, sphere2cartesian x y z = .ok out) := by
  refine ⟨?_, fun x y z h => ?_, fun x y z h1 h2 => ?_⟩
  · rw [sphere2cartesian]
    rw [if_neg (by norm_num)]
    rw [if_neg (by norm_num)]
    rw [if_pos (by norm_num)]
  · rw [sphere2cartesian, if_pos h]
  · rw [sphere2cartesian, if_neg (by push_neg; exact ⟨h1.le, h2⟩)]
    by_cases hz : z = 1
    · rw [if_pos hz]
      exact ⟨_, rfl⟩
    · rw [if_neg hz]
      have hlt : z < 1 := lt_of_le_of_ne h2 hz
      have hs : Real.sqrt (1 - z * z) ≠ 0 := by
        have hpos : 0 < 1 - z * z := by nlinarith
        exact (Real.sqrt_pos.mpr hpos).ne'
      rw [if_neg hs]
      exact ⟨_, rfl⟩

/-- Witness for C9's quantified parts at `z = 2` (domain error) and at
the point `(5, 7, 0)` (success). -/
theorem sphere2cartesian_domain_witness :
    ((2:ℝ) < -1 ∨ (1:ℝ) < 2) ∧
    sphere2cartesian 0 0 2 = .error .mathDomainError ∧
    (-1 < (0:ℝ)) ∧ ((0:ℝ) ≤ 1) ∧ ∃ out, sphere2cartesian 5 7 0 = .ok out :=
  ⟨Or.inr (by norm_num), sphere2cartesian_domain.2.1 0 0 2 (Or.inr (by norm_num)),
    by norm_num, by norm_num,
    sphere2cartesian_domain.2.2 5 7 0 (by norm_num) (by norm_num)⟩

/-- C10.  Output-length invariant: every box accepted by the
`CartesianBbox` constructor converts through `bbox_to_spherical` to a
successful `SphericalBbox` with exactly 6 values, so the 6-value
assertion never fires on this path. -/
theorem bbox_output_length_invariant (points : List ℤ) (fmt : String)
    (b : CartesianBbox) (hmk : mkCartesianBbox points fmt = .ok b) :
    ∃ s, bbox_to_spherical b = .ok s ∧ s.points.length = 6 := by
  rw [mkCartesianBbox] at hmk
  split_ifs at hmk with hfmt hlen
  cases hmk
  obtain ⟨p1, p2, p3, p4, rfl⟩ : ∃ a b c d, points = [a, b, c, d] := by
    rcases points with _ | ⟨a, _ | ⟨b, _ | ⟨c, _ | ⟨d, _ | ⟨e, t⟩⟩⟩⟩⟩ <;>
      first
      | exact ⟨_, _, _, _, rfl⟩
      | (simp only [List.length_cons, List.length_nil] at hlen; try omega)
  simp only [List.mem_cons, List.not_mem_nil, or_false] at hfmt
  rcases hfmt with h | h | h <;> subst h <;> exact ⟨_, rfl, rfl⟩

/-- Witness for C10 at the demo box `[100, 150, 150, 200]` in `xyxy`
format. -/
theorem bbox_output_length_invariant_witness :
    mkCartesianBbox [100, 150, 150, 200] "xyxy" =
      .ok ⟨[100, 150, 150, 200], "xyxy"⟩ ∧
    ∃ s, bbox_to_spherical ⟨[100, 150, 150, 200], "xyxy"⟩ = .ok s ∧
      s.points.length = 6 :=
  ⟨rfl, bbox_output_length_invariant [100, 150, 150, 200] "xyxy" _ rfl⟩

end SphericalObjects
